import Mathlib

/-!
Shallow embedding of the Pet Dashboard data-access and filter layer.

Source files embedded here:
  * `Pet Dashboard Enhancements/Algorithms and DataStructures/crud_module.py`
    (class `AnimalDatabaseManager`: `create`, `read`, `update`, `delete`,
    `clear_cache`, `_cache_key`, `_normalize_fields`, `read_df`, `_clean_df`).
  * `Pet Dashboard Enhancements/Databases/app.py`
    (`FILTER_SPECS`, `spec_to_mongo_query`, `apply_spec_filter`).

Modelling conventions:
  * Record / document cells are scalars (`Prim`): strings, integers, or the
    missing-value marker `nan` (pandas NaN / absent BSON value).
  * A Mongo query is an association list from field name to a constraint
    (`QCond`): plain scalar equality, a `{"$in": [...]}` list, or a
    `{"$gte": a, "$lte": b}` range.  Scalar equality values are hashable in
    Python; `$in` lists and range dicts are unhashable, which matters for the
    read cache.
  * The Mongo store is a list of documents; `find` is modelled as a filter
    with Mongo matching semantics (missing field never matches; type
    bracketing: a range constraint only matches numeric values).
  * A store-level fault (network error etc.) is modelled by a `faulty` flag
    on the state: any store interaction attempted while `faulty` raises,
    which the Python code catches in its `try/except` blocks.
  * Python exceptions that escape to the caller are modelled with `Except`:
    `ValueError` (the spec's ValidationError), the `TypeError` raised when
    an unhashable cache key is looked up, and on the `app.py` side the
    `KeyError` for an unregistered filter name together with the `TypeError`
    pandas raises when an ordering comparison (`>=`/`<=`) of the age mask
    meets a present string cell in an object-dtype column (equality
    comparisons and `isin` swallow such mismatches into `False`; ordering
    comparisons do not).
-/

namespace PetDash

/-- Scalar cell value as surfaced to Python from BSON / pandas. -/
inductive Prim where
  | str (s : String)
  | num (n : Int)
  | nan
deriving DecidableEq, Repr

/-- A document / record: an association list from attribute name to scalar. -/
abbrev Doc := List (String × Prim)

/-- One constraint a Mongo-style query places on a field: scalar equality,
`$in` set membership, or an inclusive `$gte`/`$lte` range. -/
inductive QCond where
  | eq (v : Prim)
  | inList (vs : List Prim)
  | range (ge le : Int)
deriving DecidableEq, Repr

/-- A Mongo-style query: an association list from field name to constraint. -/
abbrev Query := List (String × QCond)

/-- Mongo evaluation of a single constraint against a present field value.
Type bracketing: a range constraint only matches numeric values. -/
def condMatch : QCond → Prim → Bool
  | .eq w, v => v == w
  | .inList vs, v => vs.contains v
  | .range a b, v =>
      match v with
      | .num n => decide (a ≤ n) && decide (n ≤ b)
      | _ => false

/-- Mongo `find` match: every constraint must be satisfied by a present
field; a document missing a constrained field does not match. -/
def mongoMatch (q : Query) (d : Doc) : Bool :=
  q.all fun kc =>
    match d.lookup kc.1 with
    | some v => condMatch kc.2 v
    | none => false

/-- Lexicographic less-or-equal on code points, on the character lists of
two strings (the order Python `sorted` uses on `str`). -/
def strLeList : List Char → List Char → Bool
  | [], _ => true
  | _ :: _, [] => false
  | a :: as, b :: bs =>
      if a.toNat < b.toNat then true
      else if b.toNat < a.toNat then false
      else strLeList as bs

/-- Python `<=` on strings. -/
def strLe (a b : String) : Bool := strLeList a.data b.data

/-- Insertion step of Python `sorted` on strings. -/
def insertStr (x : String) : List String → List String
  | [] => [x]
  | y :: ys => if strLe x y then x :: y :: ys else y :: insertStr x ys

/-- Python `sorted` on a list of strings (ascending lexicographic). -/
def sortStrs : List String → List String
  | [] => []
  | x :: xs => insertStr x (sortStrs xs)

/-- One entry of `FILTER_SPECS`: allowed breeds, required sex, age window. -/
structure FilterSpec where
  breeds : List String
  sex : String
  age_min : Int
  age_max : Int
deriving DecidableEq, Repr

/-- The `FILTER_SPECS` table from `app.py` (breed sets in source order). -/
def FILTER_SPECS : List (String × FilterSpec) :=
  [("WATER",
     ⟨["Labrador Retriever Mix", "Chesapeake Bay Retriever", "Newfoundland"],
      "Intact Female", 26, 156⟩),
   ("MOUNTAIN",
     ⟨["German Shepherd", "Alaskan Malamute", "Old English Sheepdog",
       "Siberian Husky", "Rottweiler"],
      "Intact Male", 26, 156⟩),
   ("DISASTER",
     ⟨["Doberman Pinscher", "German Shepherd", "Golden Retriever",
       "Bloodhound", "Rottweiler"],
      "Intact Male", 20, 300⟩)]

/-- The query dict built by `spec_to_mongo_query` for one spec entry. -/
def specQuery (spec : FilterSpec) : Query :=
  [("animal_type", QCond.eq (.str "Dog")),
   ("breed", QCond.inList ((sortStrs spec.breeds).map Prim.str)),
   ("sex_upon_outcome", QCond.eq (.str spec.sex)),
   ("age_upon_outcome_in_weeks", QCond.range spec.age_min spec.age_max)]

/-- `spec_to_mongo_query` from `app.py`: `FILTER_SPECS[spec_key]` raises
`KeyError` (the spec's UnknownFilterError) on an unknown key, modelled as
`none`; otherwise builds the Mongo query dict. -/
def spec_to_mongo_query (spec_key : String) : Option Query :=
  (FILTER_SPECS.lookup spec_key).map specQuery

/-- Accumulate a column name if not already present (order of first
appearance, as in `pandas.DataFrame.from_records`). -/
def addCol (acc : List String) (k : String) : List String :=
  if acc.contains k then acc else acc ++ [k]

/-- Column set of a DataFrame built from a list of records. -/
def dfColumns (rows : List Doc) : List String :=
  rows.foldl (fun acc d => (d.map Prod.fst).foldl addCol acc) []

/-- The boolean mask of `apply_spec_filter` evaluated on one row of a
frame on which the mask computation does not raise: `isin` breed test,
sex equality, inclusive age bounds.  The wildcard arms model pandas NaN
semantics (a missing or NaN cell fails `isin`, `==`, `>=` and `<=`); they
are only ever reached for NaN/missing cells, because `apply_spec_filter`
raises `TypeError` on any frame holding a present string-valued age cell
before the mask is evaluated. -/
def specPred (spec : FilterSpec) (d : Doc) : Bool :=
  (match d.lookup "breed" with
   | some (.str b) => spec.breeds.contains b
   | _ => false) &&
  (match d.lookup "sex_upon_outcome" with
   | some v => v == Prim.str spec.sex
   | _ => false) &&
  (match d.lookup "age_upon_outcome_in_weeks" with
   | some (.num n) => decide (spec.age_min ≤ n) && decide (n ≤ spec.age_max)
   | _ => false)

/-- Exceptions `apply_spec_filter` can raise: the `KeyError` from
`FILTER_SPECS[spec_key]` on an unregistered key, and the `TypeError`
pandas raises when an ordering comparison (`>=`/`<=`) in the age mask
meets a string cell. -/
inductive MaskErr where
  | keyError
  | typeErrorCompare
deriving DecidableEq, Repr

/-- Whether a row holds a present string-valued age cell.  Pandas equality
comparisons and `isin` swallow type mismatches into `False`, but the
ordering comparisons `df[age] >= min` / `<= max` raise `TypeError` when
the object-dtype column holds a string, so one such cell anywhere in the
column makes the whole mask computation raise. -/
def ageIsStr (d : Doc) : Bool :=
  match List.lookup "age_upon_outcome_in_weeks" d with
  | some (.str _) => true
  | _ => false

/-- `apply_spec_filter` from `app.py`: `KeyError` on unknown spec key; if
the three filter columns are not all present in the frame, return the
empty frame before any mask is computed; otherwise evaluating the mask
raises `TypeError` when the age column holds a present string cell, and
else selects the rows passing the boolean mask. -/
def apply_spec_filter (df : List Doc) (spec_key : String) :
    Except MaskErr (List Doc) :=
  match FILTER_SPECS.lookup spec_key with
  | none => .error .keyError
  | some spec =>
      let cols := dfColumns df
      if cols.contains "breed" && cols.contains "sex_upon_outcome" &&
          cols.contains "age_upon_outcome_in_weeks" then
        if df.any ageIsStr then .error .typeErrorCompare
        else .ok (df.filter (specPred spec))
      else .ok []

/-- A Python argument as passed to `create`/`update`/`delete`: `None`, a
dict (whose association-list payload is a record for `create` and its patch,
or a query for `update`/`delete`), or some other non-mapping object. -/
inductive PyArg (α : Type) where
  | pyNone
  | dict (d : α)
  | other
deriving DecidableEq, Repr

/-- Python exceptions that can escape the manager to the caller:
`ValueError` from argument validation, and the `TypeError` raised when an
unhashable cache key (a query holding a dict or list value) is used. -/
inductive PyErr where
  | valueError (msg : String)
  | typeErrorUnhashable
deriving DecidableEq, Repr

/-- A cache key as built by `_cache_key`: the query items sorted by field
name, and the sorted field names (`None` when `fields` is falsy). -/
abbrev CacheKey := Query × Option (List String)

/-- State of one `AnimalDatabaseManager` plus its Mongo collection: the
stored documents, the `_read_cache`, and whether the next store interaction
raises (a store-level fault). -/
structure DBState where
  store : List Doc
  cache : List (CacheKey × List Doc)
  faulty : Bool
deriving DecidableEq, Repr

/-- Insertion step of Python `sorted` over query items (dict keys are
unique strings, so comparison never reaches the values). -/
def insertItem (x : String × QCond) : Query → Query
  | [] => [x]
  | y :: ys => if strLe x.1 y.1 then x :: y :: ys else y :: insertItem x ys

/-- `sorted(query.items())` in `_cache_key`. -/
def sortQueryItems : Query → Query
  | [] => []
  | x :: xs => insertItem x (sortQueryItems xs)

/-- Whether every value of the query is a hashable Python object (scalar
equality values are; `$in` lists and `$gte`/`$lte` dicts are not). -/
def hashableQuery (q : Query) : Bool :=
  q.all fun kc =>
    match kc.2 with
    | .eq _ => true
    | _ => false

/-- `_cache_key(query, fields)`: `(tuple(sorted(query.items())), f_tuple)`
where `f_tuple` is `None` when `fields` is falsy, else the sorted names. -/
def cache_key (q : Query) (fields : Option (List String)) : CacheKey :=
  (sortQueryItems q,
   match fields with
   | none => none
   | some [] => none
   | some fs => some (sortStrs fs))

/-- Dictionary lookup in `_read_cache` (`_cache_get` after the key hashes). -/
def cacheGet : List (CacheKey × List Doc) → CacheKey → Option (List Doc)
  | [], _ => none
  | (k', v) :: t, k => if k' = k then some v else cacheGet t k

/-- Dictionary assignment in `_read_cache` (`_cache_set`). -/
def cacheSet (c : List (CacheKey × List Doc)) (k : CacheKey) (v : List Doc) :
    List (CacheKey × List Doc) :=
  (k, v) :: c.filter fun kv => !decide (kv.1 = k)

/-- A Mongo projection dict (`{field: 1, ...}`). -/
abbrev Proj := List (String × Nat)

/-- The `fields` list `read` derives from a projection dict:
`[k for k in projection.keys() if k != '_id']`. -/
def projFields (projection : Option Proj) : Option (List String) :=
  projection.map fun p => (p.map Prod.fst).filter fun k => !(k == "_id")

/-- Inclusion projection applied by Mongo `find`: keep `_id` plus every
field listed with flag 1. -/
def projectDoc (projection : Option Proj) (d : Doc) : Doc :=
  match projection with
  | none => d
  | some p => d.filter fun kv => kv.1 == "_id" || p.contains (kv.1, 1)

/-- A `cursor.sort` argument: field names with direction (1 or -1). -/
abbrev SortSpec := List (String × Int)

/-- Total order on cell values mirroring the BSON comparison order used by
Mongo sorts: missing/NaN sorts first, then numbers, then strings. -/
def cmpPrim : Prim → Prim → Ordering
  | .nan, .nan => .eq
  | .nan, _ => .lt
  | _, .nan => .gt
  | .num a, .num b => compare a b
  | .num _, .str _ => .lt
  | .str _, .num _ => .gt
  | .str a, .str b =>
      if a == b then .eq else if strLe a b then .lt else .gt

/-- Compare two documents under a sort spec (first differing key decides;
a negative direction flips the comparison; missing fields sort as NaN). -/
def docCmp (s : SortSpec) (d1 d2 : Doc) : Ordering :=
  match s with
  | [] => .eq
  | (f, dir) :: rest =>
      let o := cmpPrim ((d1.lookup f).getD .nan) ((d2.lookup f).getD .nan)
      let o := if dir < 0 then o.swap else o
      match o with
      | .eq => docCmp rest d1 d2
      | r => r

/-- Insertion step of the modelled server-side sort. -/
def insertDoc (s : SortSpec) (x : Doc) : List Doc → List Doc
  | [] => [x]
  | y :: ys =>
      match docCmp s x y with
      | .gt => y :: insertDoc s x ys
      | _ => x :: y :: ys

/-- Server-side `cursor.sort`, modelled as an insertion sort under the
sort-spec comparison.  `if sort:` - an absent or empty spec is falsy and
leaves the result in store order. -/
def applySort (sort : Option SortSpec) (docs : List Doc) : List Doc :=
  match sort with
  | none => docs
  | some [] => docs
  | some s => docs.foldr (insertDoc s) []

/-- Server-side `cursor.limit`: `if limit:` - zero is falsy (no limit). -/
def applyLimit (limit : Nat) (docs : List Doc) : List Doc :=
  if limit == 0 then docs else docs.take limit

/-- The `try` block body of `read` when the store does not fault:
`find(query, projection)` then optional sort, then optional limit. -/
def runFind (st : DBState) (q : Query) (projection : Option Proj)
    (sort : Option SortSpec) (limit : Nat) : List Doc :=
  (applyLimit limit (applySort sort (st.store.filter (mongoMatch q)))).map
    (projectDoc projection)

/-- `AnimalDatabaseManager.read`.  The query defaults to match-all; the
cache key is built from the query and the projection's field names; with
`use_cache`, a hit returns the cached list before any store interaction,
and looking up an unhashable key raises `TypeError` (uncaught); a
store-level fault inside the `try` block is swallowed into `[]`. -/
def read (st : DBState) (query : Option Query) (projection : Option Proj)
    (sort : Option SortSpec) (limit : Nat) (use_cache : Bool) :
    Except PyErr (List Doc × DBState) :=
  let q := query.getD []
  let key := cache_key q (projFields projection)
  if use_cache then
    if hashableQuery q then
      match cacheGet st.cache key with
      | some cached => .ok (cached, st)
      | none =>
          if st.faulty then .ok ([], st)
          else
            let docs := runFind st q projection sort limit
            .ok (docs, { st with cache := cacheSet st.cache key docs })
    else .error .typeErrorUnhashable
  else
    if st.faulty then .ok ([], st)
    else .ok (runFind st q projection sort limit, st)

/-- `AnimalDatabaseManager.create`: `ValueError` on a non-dict or empty
document; a store fault is swallowed into `False` (cache untouched);
on success the document is inserted and the whole cache cleared. -/
def create (st : DBState) (document : PyArg Doc) : Except PyErr (Bool × DBState) :=
  match document with
  | .dict d =>
      if d.isEmpty then
        .error (.valueError "Document must be a non-empty dictionary.")
      else if st.faulty then .ok (false, st)
      else .ok (true, { st with store := st.store ++ [d], cache := [] })
  | _ => .error (.valueError "Document must be a non-empty dictionary.")

/-- Apply one `$set` field assignment to a document. -/
def setField (d : Doc) (k : String) (v : Prim) : Doc :=
  if (d.lookup k).isSome then
    d.map fun kv => if kv.1 == k then (k, v) else kv
  else d ++ [(k, v)]

/-- Apply a `{'$set': patch}` update to a document. -/
def applySet (patch : Doc) (d : Doc) : Doc :=
  patch.foldl (fun acc kv => setField acc kv.1 kv.2) d

/-- `AnimalDatabaseManager.update`: `ValueError` on an invalid query or
patch; a store fault is swallowed into `0` (cache untouched); on success
`$set` is applied to every match, the cache is cleared, and the number of
documents actually modified is returned. -/
def update (st : DBState) (query : PyArg Query) (update_data : PyArg Doc) :
    Except PyErr (Int × DBState) :=
  match query with
  | .dict q =>
      if q.isEmpty then
        .error (.valueError "Query must be a non-empty dictionary.")
      else
        match update_data with
        | .dict p =>
            if p.isEmpty then
              .error (.valueError "Update data must be a non-empty dictionary.")
            else if st.faulty then .ok (0, st)
            else
              .ok (((st.store.filter fun d =>
                      mongoMatch q d && !(applySet p d == d)).length : Int),
                   { st with
                       store := st.store.map fun d =>
                         if mongoMatch q d then applySet p d else d,
                       cache := [] })
        | _ => .error (.valueError "Update data must be a non-empty dictionary.")
  | _ => .error (.valueError "Query must be a non-empty dictionary.")

/-- `AnimalDatabaseManager.delete`: `ValueError` on an invalid query; a
store fault is swallowed into `0` (cache untouched); on success every match
is removed, the cache cleared, and the removed count returned. -/
def delete (st : DBState) (query : PyArg Query) : Except PyErr (Int × DBState) :=
  match query with
  | .dict q =>
      if q.isEmpty then
        .error (.valueError "Query must be a non-empty dictionary.")
      else if st.faulty then .ok (0, st)
      else
        .ok (((st.store.filter (mongoMatch q)).length : Int),
             { st with store := st.store.filter fun d => !mongoMatch q d,
                       cache := [] })
  | _ => .error (.valueError "Query must be a non-empty dictionary.")

/-- `clear_cache`. -/
def clear_cache (st : DBState) : DBState := { st with cache := [] }

/-- `_normalize_fields`: a falsy `fields` gives no projection; otherwise a
`{f: 1}` dict with `_id` forced in. -/
def normalize_fields (fields : Option (List String)) : Option Proj :=
  match fields with
  | none => none
  | some [] => none
  | some fs =>
      if fs.contains "_id" then some (fs.map fun f => (f, 1))
      else some ((fs.map fun f => (f, 1)) ++ [("_id", 1)])

/-- The numeric columns coerced by `_clean_df`. -/
def numericCols : List String :=
  ["age_upon_outcome_in_weeks", "location_lat", "location_long"]

/-- The text columns tidied by `_clean_df`. -/
def textCols : List String :=
  ["name", "breed", "animal_type", "sex_upon_outcome"]

/-- ASCII whitespace, as stripped by `str.strip` / accepted by numeric
parsing. -/
def isSpaceChar (c : Char) : Bool :=
  c.toNat == 32 || (decide (9 ≤ c.toNat) && decide (c.toNat ≤ 13))

/-- Strip leading and trailing whitespace from a character list. -/
def trimChars (l : List Char) : List Char :=
  ((l.dropWhile isSpaceChar).reverse.dropWhile isSpaceChar).reverse

/-- Python `str.strip()`. -/
def pyStrip (s : String) : String := ⟨trimChars s.data⟩

/-- Parse an unsigned run of decimal digits (`none` on any non-digit). -/
def digitsValAux : List Char → Nat → Option Nat
  | [], acc => some acc
  | c :: cs, acc =>
      if decide (48 ≤ c.toNat) && decide (c.toNat ≤ 57) then
        digitsValAux cs (acc * 10 + (c.toNat - 48))
      else none

/-- Parse an optionally signed integer literal from stripped characters. -/
def parseIntChars : List Char → Option Int
  | [] => none
  | '-' :: cs =>
      match cs with
      | [] => none
      | _ => (digitsValAux cs 0).map fun n => -(n : Int)
  | '+' :: cs =>
      match cs with
      | [] => none
      | _ => (digitsValAux cs 0).map fun n => (n : Int)
  | cs => (digitsValAux cs 0).map fun n => (n : Int)

/-- `pd.to_numeric(..., errors='coerce')` on one cell: numbers pass
through, integer-literal strings parse, anything else becomes the missing
marker (numeric cells are modelled as integers). -/
def toNumeric : Prim → Prim
  | .num n => .num n
  | .nan => .nan
  | .str s =>
      match parseIntChars (trimChars s.data) with
      | some n => .num n
      | none => .nan

/-- `astype(str)` on one cell (pandas renders NaN as the string "nan"). -/
def primToString : Prim → String
  | .str s => s
  | .num n => toString n
  | .nan => "nan"

/-- Cleanup applied by `_clean_df` to one cell of a named column. -/
def cleanCell (c : String) (v : Prim) : Prim :=
  if numericCols.contains c then toNumeric v
  else if textCols.contains c then .str (pyStrip (primToString v))
  else v

/-- `_clean_df`: the empty frame passes through; otherwise `_id` is
stringified and dropped, numeric columns coerced with NaN for bad cells,
text columns stringified and stripped.  Rows are materialized over the
frame's columns (a field absent from a row is a NaN cell). -/
def clean_df (rows : List Doc) : List Doc :=
  if rows.isEmpty then rows
  else
    let cols := (dfColumns rows).filter fun c => !(c == "_id")
    rows.map fun d => cols.map fun c => (c, cleanCell c ((d.lookup c).getD .nan))

/-- `AnimalDatabaseManager.read_df`: project the requested fields, read
(bypassing the cache under `force_refresh`), and clean the frame. -/
def read_df (st : DBState) (query : Option Query) (fields : Option (List String))
    (force_refresh : Bool) : Except PyErr (List Doc × DBState) :=
  match read st query (normalize_fields fields) none 0 (!force_refresh) with
  | .error e => .error e
  | .ok (docs, st') => .ok (clean_df docs, st')

/-! Helper lemmas about the embedded definitions. -/

theorem mem_insertStr {b x : String} {l : List String} :
    b ∈ insertStr x l ↔ b = x ∨ b ∈ l := by
  induction l with
  | nil => simp [insertStr]
  | cons y ys ih =>
      rw [insertStr]
      split
      · simp
      · simp only [List.mem_cons, ih]
        tauto

theorem mem_sortStrs {b : String} {l : List String} : b ∈ sortStrs l ↔ b ∈ l := by
  induction l with
  | nil => simp [sortStrs]
  | cons x xs ih =>
      rw [sortStrs, mem_insertStr]
      simp [ih]

theorem mem_addCol {acc : List String} {k x : String} :
    x ∈ addCol acc k ↔ x ∈ acc ∨ x = k := by
  unfold addCol
  split
  · rename_i h
    constructor
    · exact Or.inl
    · rintro (hx | rfl)
      · exact hx
      · simpa using h
  · simp

theorem mem_foldl_addCol {ks : List String} {acc : List String} {x : String} :
    x ∈ ks.foldl addCol acc ↔ x ∈ acc ∨ x ∈ ks := by
  induction ks generalizing acc with
  | nil => simp
  | cons k ks ih =>
      rw [List.foldl_cons, ih, mem_addCol]
      simp only [List.mem_cons]
      tauto

theorem mem_dfColumns_aux {rows : List Doc} {acc : List String} {x : String} :
    x ∈ rows.foldl (fun acc d => (d.map Prod.fst).foldl addCol acc) acc ↔
      x ∈ acc ∨ ∃ d ∈ rows, x ∈ d.map Prod.fst := by
  induction rows generalizing acc with
  | nil => simp
  | cons d rows ih =>
      rw [List.foldl_cons, ih, mem_foldl_addCol]
      simp only [List.mem_cons]
      constructor
      · rintro ((h | h) | ⟨d', hd', hx⟩)
        · exact Or.inl h
        · exact Or.inr ⟨d, Or.inl rfl, h⟩
        · exact Or.inr ⟨d', Or.inr hd', hx⟩
      · rintro (h | ⟨d', (rfl | hd'), hx⟩)
        · exact Or.inl (Or.inl h)
        · exact Or.inl (Or.inr hx)
        · exact Or.inr ⟨d', hd', hx⟩

theorem mem_dfColumns {rows : List Doc} {x : String} :
    x ∈ dfColumns rows ↔ ∃ d ∈ rows, x ∈ d.map Prod.fst := by
  unfold dfColumns
  rw [mem_dfColumns_aux]
  simp

theorem mem_keys_of_lookup {α : Type} {l : List (String × α)} {c : String} {v : α}
    (h : List.lookup c l = some v) : c ∈ l.map Prod.fst := by
  induction l with
  | nil => simp [List.lookup] at h
  | cons a t ih =>
      rw [List.lookup] at h
      cases hc : c == a.1
      · simp only [hc] at h
        simp [ih h]
      · have hc' : c = a.1 := by simpa using hc
        simp [hc']

theorem lookup_eq_none_of_not_mem_dfColumns {rows : List Doc} {c : String}
    (h : c ∉ dfColumns rows) {d : Doc} (hd : d ∈ rows) : List.lookup c d = none := by
  cases hl : List.lookup c d with
  | none => rfl
  | some v =>
      exact absurd (mem_dfColumns.mpr ⟨d, hd, mem_keys_of_lookup hl⟩) h

/-- The `animal_type == "Dog"` factor that only the Mongo path checks. -/
def dogDoc (d : Doc) : Bool :=
  match List.lookup "animal_type" d with
  | some v => v == Prim.str "Dog"
  | none => false

theorem condMatch_breeds (bs : List String) (v : Prim) :
    condMatch (QCond.inList ((sortStrs bs).map Prim.str)) v =
      (match v with
       | .str b => bs.contains b
       | _ => false) := by
  cases v <;> simp [condMatch, mem_sortStrs]

theorem mongoMatch_specQuery (spec : FilterSpec) (d : Doc) :
    mongoMatch (specQuery spec) d = (dogDoc d && specPred spec d) := by
  unfold mongoMatch specQuery specPred dogDoc
  simp only [List.all_cons, List.all_nil, Bool.and_true, Bool.and_assoc]
  cases List.lookup "animal_type" d with
  | none => simp [condMatch]
  | some va =>
      cases List.lookup "breed" d with
      | none => simp [condMatch]
      | some vb =>
          cases List.lookup "sex_upon_outcome" d with
          | none => simp [condMatch]
          | some vs =>
              cases List.lookup "age_upon_outcome_in_weeks" d with
              | none => simp [condMatch]
              | some vg => cases vb <;> cases vg <;> simp [condMatch, mem_sortStrs]

theorem specPred_false_of_guard_false {rows : List Doc} (spec : FilterSpec)
    (h : ((dfColumns rows).contains "breed" &&
          (dfColumns rows).contains "sex_upon_outcome" &&
          (dfColumns rows).contains "age_upon_outcome_in_weeks") = false)
    {d : Doc} (hd : d ∈ rows) : specPred spec d = false := by
  have hcase : (dfColumns rows).contains "breed" = false ∨
      (dfColumns rows).contains "sex_upon_outcome" = false ∨
      (dfColumns rows).contains "age_upon_outcome_in_weeks" = false := by
    cases hb : (dfColumns rows).contains "breed" <;>
      cases hs : (dfColumns rows).contains "sex_upon_outcome" <;>
      cases ha : (dfColumns rows).contains "age_upon_outcome_in_weeks" <;>
      simp_all
  unfold specPred
  rcases hcase with hcol | hcol | hcol
  · rw [lookup_eq_none_of_not_mem_dfColumns (c := "breed")
      (by simpa using hcol) hd]
    simp
  · rw [lookup_eq_none_of_not_mem_dfColumns (c := "sex_upon_outcome")
      (by simpa using hcol) hd]
    simp
  · rw [lookup_eq_none_of_not_mem_dfColumns (c := "age_upon_outcome_in_weeks")
      (by simpa using hcol) hd]
    simp

/-- When no present age cell is a string (so the mask computation does
not raise), the column-presence guard of `apply_spec_filter` never changes
the result: on a registered key the function is exactly the row filter. -/
theorem apply_spec_filter_eq_filter {rows : List Doc} {k : String} {spec : FilterSpec}
    (hk : List.lookup k FILTER_SPECS = some spec)
    (hnum : rows.any ageIsStr = false) :
    apply_spec_filter rows k = .ok (rows.filter (specPred spec)) := by
  unfold apply_spec_filter
  simp only [hk]
  split
  · rw [if_neg (by simp [hnum])]
  · rename_i h
    have h' : ((dfColumns rows).contains "breed" &&
        (dfColumns rows).contains "sex_upon_outcome" &&
        (dfColumns rows).contains "age_upon_outcome_in_weeks") = false := by
      simpa using h
    have hnil : rows.filter (specPred spec) = [] := by
      rw [List.filter_eq_nil_iff]
      intro d hd hpred
      rw [specPred_false_of_guard_false spec h' hd] at hpred
      exact absurd hpred (by simp)
    rw [hnil]

theorem cacheGet_cacheSet_self (c : List (CacheKey × List Doc)) (k : CacheKey)
    (v : List Doc) : cacheGet (cacheSet c k v) k = some v := by
  unfold cacheSet cacheGet
  simp

theorem all_insertItem (p : String × QCond → Bool) (x : String × QCond) (l : Query) :
    (insertItem x l).all p = (p x && l.all p) := by
  induction l with
  | nil => simp [insertItem]
  | cons y ys ih =>
      rw [insertItem]
      split
      · simp
      · simp only [List.all_cons, ih]
        rw [Bool.and_left_comm]

theorem all_sortQueryItems (p : String × QCond → Bool) (q : Query) :
    (sortQueryItems q).all p = q.all p := by
  induction q with
  | nil => rfl
  | cons x xs ih => rw [sortQueryItems, all_insertItem, ih, List.all_cons]

theorem hashable_sortQueryItems (q : Query) :
    hashableQuery (sortQueryItems q) = hashableQuery q :=
  all_sortQueryItems _ q

theorem hashable_of_sortQueryItems_eq {q1 q2 : Query}
    (h : sortQueryItems q1 = sortQueryItems q2) (hh : hashableQuery q1 = true) :
    hashableQuery q2 = true := by
  rw [← hashable_sortQueryItems q2, ← h, hashable_sortQueryItems]
  exact hh

theorem read_cache_hit {st : DBState} {q : Query} {projection : Option Proj}
    {sort : Option SortSpec} {limit : Nat} {docs : List Doc}
    (hh : hashableQuery q = true)
    (hc : cacheGet st.cache (cache_key q (projFields projection)) = some docs) :
    read st (some q) projection sort limit true = .ok (docs, st) := by
  simp [read, hh, hc]

theorem read_cache_miss {st : DBState} {q : Query} {projection : Option Proj}
    {sort : Option SortSpec} {limit : Nat}
    (hf : st.faulty = false) (hh : hashableQuery q = true)
    (hc : cacheGet st.cache (cache_key q (projFields projection)) = none) :
    read st (some q) projection sort limit true =
      .ok (runFind st q projection sort limit,
           { st with cache := cacheSet st.cache (cache_key q (projFields projection))
                               (runFind st q projection sort limit) }) := by
  simp [read, hh, hc, hf]

/-! Concrete records used by counterexamples and witnesses. -/

/-- First record of the spec's equivalence example (a Newfoundland). -/
def exRec1 : Doc :=
  [("breed", .str "Newfoundland"), ("sex_upon_outcome", .str "Intact Female"),
   ("age_upon_outcome_in_weeks", .num 100)]

/-- Second record of the spec's equivalence example (a Poodle). -/
def exRec2 : Doc :=
  [("breed", .str "Poodle"), ("sex_upon_outcome", .str "Intact Female"),
   ("age_upon_outcome_in_weeks", .num 100)]

/-- The first example record extended with `animal_type = "Dog"`. -/
def exDog1 : Doc := ("animal_type", .str "Dog") :: exRec1

/-- The second example record extended with `animal_type = "Dog"`. -/
def exDog2 : Doc := ("animal_type", .str "Dog") :: exRec2

/-! Claim theorems. -/

/-- C1 counterexample: on the spec's own example dataset (two records with
breed, sex and age but no `animal_type` attribute) and filter `WATER`, the
in-memory path returns the first record but the backend query produced by
`spec_to_mongo_query` selects no record at all (it also requires
`animal_type = "Dog"`, which `apply_spec_filter` never checks), so the two
paths are not observably equivalent as the claim states. -/
theorem filter_paths_differ_on_spec_example :
    ∃ q, spec_to_mongo_query "WATER" = some q ∧
      apply_spec_filter [exRec1, exRec2] "WATER" = .ok [exRec1] ∧
      List.filter (mongoMatch q) [exRec1, exRec2] = [] :=
  ⟨_, rfl, rfl, by decide⟩

/-- C1 (amended): for every dataset without string-valued age cells (on
which the in-memory mask computation would raise pandas' `TypeError`) in
which each record selected by the rule's breed/sex/age predicate carries
`animal_type = "Dog"`, and every registered filter name, the records
selected by the backend query produced by `spec_to_mongo_query` are
exactly the records returned by `apply_spec_filter` over the full
dataset. -/
theorem filter_paths_agree_on_dog_records (rows : List Doc) (k : String)
    (spec : FilterSpec) (hk : List.lookup k FILTER_SPECS = some spec)
    (hnum : rows.any ageIsStr = false)
    (hdog : ∀ d ∈ rows, specPred spec d = true →
      List.lookup "animal_type" d = some (Prim.str "Dog")) :
    ∃ q res, spec_to_mongo_query k = some q ∧
      apply_spec_filter rows k = .ok res ∧
      List.filter (mongoMatch q) rows = res := by
  refine ⟨specQuery spec, rows.filter (specPred spec), ?_,
    apply_spec_filter_eq_filter hk hnum, ?_⟩
  · unfold spec_to_mongo_query
    rw [hk]
    rfl
  · apply List.filter_congr
    intro d hd
    rw [mongoMatch_specQuery]
    cases hp : specPred spec d
    · simp
    · unfold dogDoc
      rw [hdog d hd hp]
      simp

/-- C1 witness: on the example dataset with `animal_type = "Dog"` present
and numeric ages, both paths return exactly the first record. -/
theorem filter_paths_agree_on_dog_records_witness :
    ∃ q res, spec_to_mongo_query "WATER" = some q ∧
      apply_spec_filter [exDog1, exDog2] "WATER" = .ok res ∧
      List.filter (mongoMatch q) [exDog1, exDog2] = res :=
  filter_paths_agree_on_dog_records [exDog1, exDog2] "WATER" _ rfl (by decide)
    (by decide)

/-- A record whose age attribute is present but holds the string
`"unknown"`. -/
def rowStrAge : Doc :=
  [("breed", .str "Newfoundland"), ("sex_upon_outcome", .str "Intact Female"),
   ("age_upon_outcome_in_weeks", .str "unknown")]

/-- C5 counterexample: on a record collection holding a present
string-valued age cell, `apply_spec_filter` raises the `TypeError` pandas
produces for the `>=` comparison between a string and an integer, instead
of returning the matching subset as the claim states for every record
collection. -/
theorem apply_spec_filter_raises_on_string_age :
    apply_spec_filter [rowStrAge] "WATER" = .error .typeErrorCompare := rfl

/-- C5 (amended): for every registered filter rule and every record
collection without string-valued age cells (those make the pandas mask
raise `TypeError`), `apply_spec_filter` returns exactly the records
passing the rule's breed/sex/age predicate (missing attributes fail the
predicate), in their original relative order; and for every record
collection whatsoever, when any of the three required columns is entirely
absent the result is the empty subset rather than a fault. -/
theorem apply_spec_filter_exact (rows : List Doc) (k : String)
    (spec : FilterSpec) (hk : List.lookup k FILTER_SPECS = some spec)
    (hnum : rows.any ageIsStr = false) :
    apply_spec_filter rows k = .ok (rows.filter (specPred spec)) ∧
    (("breed" ∉ dfColumns rows ∨ "sex_upon_outcome" ∉ dfColumns rows ∨
        "age_upon_outcome_in_weeks" ∉ dfColumns rows) →
      apply_spec_filter rows k = .ok []) ∧
    (∀ rows' : List Doc,
      ("breed" ∉ dfColumns rows' ∨ "sex_upon_outcome" ∉ dfColumns rows' ∨
        "age_upon_outcome_in_weeks" ∉ dfColumns rows') →
      apply_spec_filter rows' k = .ok []) := by
  have hmisscase : ∀ rows' : List Doc,
      ("breed" ∉ dfColumns rows' ∨ "sex_upon_outcome" ∉ dfColumns rows' ∨
        "age_upon_outcome_in_weeks" ∉ dfColumns rows') →
      apply_spec_filter rows' k = .ok [] := by
    intro rows' hmiss
    unfold apply_spec_filter
    simp only [hk]
    split
    · rename_i h
      exfalso
      have h3 : ("breed" ∈ dfColumns rows' ∧
          "sex_upon_outcome" ∈ dfColumns rows') ∧
          "age_upon_outcome_in_weeks" ∈ dfColumns rows' := by simpa using h
      rcases hmiss with hm | hm | hm
      · exact hm h3.1.1
      · exact hm h3.1.2
      · exact hm h3.2
    · rfl
  exact ⟨apply_spec_filter_eq_filter hk hnum, hmisscase rows, hmisscase⟩

/-- C5 witness: the `WATER` rule on the example dataset keeps exactly the
Newfoundland record. -/
theorem apply_spec_filter_exact_witness :
    apply_spec_filter [exRec1, exRec2] "WATER" = .ok [exRec1] := by
  rw [(apply_spec_filter_exact [exRec1, exRec2] "WATER" _ rfl (by decide)).1]
  rfl

/-- C6: `spec_to_mongo_query` fails (the `KeyError` the spec names
UnknownFilterError) exactly when the filter name is not registered, and on
each registered name returns precisely the query fixing
`animal_type = "Dog"`, breed `$in` membership over the rule's breeds as a
sorted sequence, equality on the rule's sex value, and the inclusive
`$gte`/`$lte` range on age-in-weeks. -/
theorem spec_to_mongo_query_exact :
    (∀ k, spec_to_mongo_query k = none ↔ List.lookup k FILTER_SPECS = none) ∧
    spec_to_mongo_query "WATER" = some
      [("animal_type", QCond.eq (.str "Dog")),
       ("breed", QCond.inList
         [.str "Chesapeake Bay Retriever", .str "Labrador Retriever Mix",
          .str "Newfoundland"]),
       ("sex_upon_outcome", QCond.eq (.str "Intact Female")),
       ("age_upon_outcome_in_weeks", QCond.range 26 156)] ∧
    spec_to_mongo_query "MOUNTAIN" = some
      [("animal_type", QCond.eq (.str "Dog")),
       ("breed", QCond.inList
         [.str "Alaskan Malamute", .str "German Shepherd",
          .str "Old English Sheepdog", .str "Rottweiler",
          .str "Siberian Husky"]),
       ("sex_upon_outcome", QCond.eq (.str "Intact Male")),
       ("age_upon_outcome_in_weeks", QCond.range 26 156)] ∧
    spec_to_mongo_query "DISASTER" = some
      [("animal_type", QCond.eq (.str "Dog")),
       ("breed", QCond.inList
         [.str "Bloodhound", .str "Doberman Pinscher", .str "German Shepherd",
          .str "Golden Retriever", .str "Rottweiler"]),
       ("sex_upon_outcome", QCond.eq (.str "Intact Male")),
       ("age_upon_outcome_in_weeks", QCond.range 20 300)] := by
  refine ⟨fun k => ?_, by decide, by decide, by decide⟩
  unfold spec_to_mongo_query
  exact Option.map_eq_none'

/-- Lookup in a row materialized from a column list always finds the cell
computed for a listed column. -/
theorem lookup_map_mk {cols : List String} {c : String} (f : String → Prim)
    (h : c ∈ cols) :
    List.lookup c (cols.map fun x => (x, f x)) = some (f c) := by
  induction cols with
  | nil => simp at h
  | cons a t ih =>
      cases hc : c == a
      · have hct : c ∈ t := by
          rcases List.mem_cons.mp h with rfl | ht
          · simp at hc
          · exact ht
        simp only [List.map_cons, List.lookup, hc]
        exact ih hct
      · have hca : c = a := by simpa using hc
        subst hca
        simp [List.lookup]

/-- Empty store with no cache and a healthy connection. -/
def stEmpty : DBState := ⟨[], [], false⟩

/-- A store holding the two dog records, healthy, with an empty cache. -/
def stDocs : DBState := ⟨[exDog1, exDog2], [], false⟩

/-- A faulty-connection state with empty store and cache. -/
def stF : DBState := ⟨[], [], true⟩

/-- A non-empty query whose value is a `$gte`/`$lte` range dict. -/
def qRange : Query := [("age_upon_outcome_in_weeks", QCond.range 26 156)]

/-- A two-field scalar query. -/
def qW1 : Query :=
  [("breed", QCond.eq (.str "Newfoundland")),
   ("sex_upon_outcome", QCond.eq (.str "Intact Female"))]

/-- The same query with its fields in the opposite insertion order. -/
def qW2 : Query :=
  [("sex_upon_outcome", QCond.eq (.str "Intact Female")),
   ("breed", QCond.eq (.str "Newfoundland"))]

/-- A one-field scalar query matching both dog records. -/
def qDog : Query := [("animal_type", QCond.eq (.str "Dog"))]

/-- A scalar query used for fault witnesses. -/
def qC : Query := [("breed", QCond.eq (.str "X"))]

/-- A document used for fault witnesses. -/
def dC : Doc := [("name", .str "Rex")]

/-- A patch used for fault witnesses. -/
def pC : Doc := [("name", .str "Max")]

/-- The query whose result is cached in the stale-cache state. -/
def cqStale : Query := [("breed", QCond.eq (.str "Newfoundland"))]

/-- The stale cached document. -/
def staleDoc : Doc := [("breed", .str "Newfoundland")]

/-- A faulty state whose cache holds a previously read result for
`cqStale` while the store is empty. -/
def stStale : DBState := ⟨[], [(cache_key cqStale none, [staleDoc])], true⟩

/-- C2 counterexample: a non-empty query mapping whose value is a range
dict is equal to itself by normalized (sorted-items) content, yet `read`
with caching enabled raises `TypeError` at cache-key lookup instead of
storing and returning a result, so the claim fails for such query pairs. -/
theorem read_raises_on_range_query :
    qRange ≠ [] ∧ sortQueryItems qRange = sortQueryItems qRange ∧
    read stEmpty (some qRange) none none 0 true = .error .typeErrorUnhashable :=
  ⟨by decide, rfl, rfl⟩

/-- C2 (amended): for every pair of non-empty query mappings with scalar
(hashable) values that are equal by normalized (sorted-items) content, and
the same projection, when the store is healthy a `read` of the first with
caching enabled stores its result, and a subsequent `read` of the second
with caching enabled returns that same list without performing a second
store query (witnessed by the store contents and the fault flag being
irrelevant to the second call). -/
theorem read_caches_scalar_queries (st : DBState) (q1 q2 : Query)
    (proj : Option Proj) (hf : st.faulty = false) (_hne : q1 ≠ [])
    (hh : hashableQuery q1 = true)
    (heq : sortQueryItems q1 = sortQueryItems q2) :
    ∃ docs st',
      read st (some q1) proj none 0 true = .ok (docs, st') ∧
      cacheGet st'.cache (cache_key q1 (projFields proj)) = some docs ∧
      ∀ s2 b, read { st' with store := s2, faulty := b } (some q2) proj none 0 true =
        .ok (docs, { st' with store := s2, faulty := b }) := by
  have hh2 : hashableQuery q2 = true := hashable_of_sortQueryItems_eq heq hh
  have hkey : cache_key q2 (projFields proj) = cache_key q1 (projFields proj) := by
    unfold cache_key
    rw [heq]
  cases hc : cacheGet st.cache (cache_key q1 (projFields proj)) with
  | some docs =>
      refine ⟨docs, st, read_cache_hit hh hc, hc, fun s2 b => ?_⟩
      exact read_cache_hit hh2 (by rw [hkey]; exact hc)
  | none =>
      refine ⟨runFind st q1 proj none 0, _, read_cache_miss hf hh hc,
        cacheGet_cacheSet_self .., fun s2 b => ?_⟩
      exact read_cache_hit hh2 (by rw [hkey]; exact cacheGet_cacheSet_self ..)

/-- C2 witness: the two-field query in both insertion orders, on the
healthy two-record store. -/
theorem read_caches_scalar_queries_witness :
    ∃ docs st',
      read stDocs (some qW1) none none 0 true = .ok (docs, st') ∧
      cacheGet st'.cache (cache_key qW1 (projFields none)) = some docs ∧
      ∀ s2 b, read { st' with store := s2, faulty := b } (some qW2) none none 0 true =
        .ok (docs, { st' with store := s2, faulty := b }) :=
  read_caches_scalar_queries stDocs qW1 qW2 none rfl (by decide) (by decide)
    (by decide)

/-- C3 counterexample: a call to `create` whose store interaction faults
returns `False` without clearing the read cache, and the next `read` with
the previously cached key returns the cached list (the empty store would
yield no documents) instead of re-querying, so not every call to a write
operation clears the cache. -/
theorem create_fault_leaves_cache :
    create stStale (.dict dC) = .ok (false, stStale) ∧
    stStale.cache ≠ [] ∧
    read stStale (some cqStale) none none 0 true = .ok ([staleDoc], stStale) ∧
    List.filter (mongoMatch cqStale) stStale.store = [] :=
  ⟨rfl, by decide, rfl, rfl⟩

/-- C3 (amended): every call to `create`, `update` or `delete` whose
arguments pass validation and whose store interaction succeeds clears the
entire read cache, so a subsequent `read` cannot return a stale cached
list. -/
theorem writes_clear_cache (st : DBState) (d p : Doc) (q : Query)
    (hf : st.faulty = false) (hd : d ≠ []) (hq : q ≠ []) (hp : p ≠ []) :
    (∃ st', create st (.dict d) = .ok (true, st') ∧ st'.cache = []) ∧
    (∃ n st', update st (.dict q) (.dict p) = .ok (n, st') ∧ st'.cache = []) ∧
    (∃ n st', delete st (.dict q) = .ok (n, st') ∧ st'.cache = []) := by
  obtain ⟨store, cache, faulty⟩ := st
  rcases d with _ | ⟨a, d⟩
  · exact absurd rfl hd
  rcases q with _ | ⟨b, q⟩
  · exact absurd rfl hq
  rcases p with _ | ⟨c, p⟩
  · exact absurd rfl hp
  subst hf
  exact ⟨⟨_, rfl, rfl⟩, ⟨_, _, rfl, rfl⟩, ⟨_, _, rfl, rfl⟩⟩

/-- C3 witness: concrete successful create/update/delete calls each leave
an empty cache. -/
theorem writes_clear_cache_witness :
    (∃ st', create stDocs (.dict dC) = .ok (true, st') ∧ st'.cache = []) ∧
    (∃ n st', update stDocs (.dict qDog) (.dict pC) = .ok (n, st') ∧
      st'.cache = []) ∧
    (∃ n st', delete stDocs (.dict qDog) = .ok (n, st') ∧ st'.cache = []) :=
  writes_clear_cache stDocs dC pC qDog rfl (by decide) (by decide) (by decide)

/-- C4: every store-level fault during the store interaction of `create`,
`read`, `update` or `delete` is caught inside the operation and converted
to the neutral result (`False`, `[]`, `0`, `0` respectively) with the state
unchanged, and is never propagated to the caller as a raised failure. -/
theorem store_faults_swallowed (st : DBState) (hf : st.faulty = true) :
    (∀ d : Doc, d ≠ [] → create st (.dict d) = .ok (false, st)) ∧
    (∀ (q : Query) (proj : Option Proj) (s : Option SortSpec) (n : Nat),
        hashableQuery q = true →
        cacheGet st.cache (cache_key q (projFields proj)) = none →
        read st (some q) proj s n true = .ok ([], st)) ∧
    (∀ (q : Query) (proj : Option Proj) (s : Option SortSpec) (n : Nat),
        read st (some q) proj s n false = .ok ([], st)) ∧
    (∀ (q : Query) (p : Doc), q ≠ [] → p ≠ [] →
        update st (.dict q) (.dict p) = .ok (0, st)) ∧
    (∀ q : Query, q ≠ [] → delete st (.dict q) = .ok (0, st)) := by
  obtain ⟨store, cache, faulty⟩ := st
  subst hf
  refine ⟨fun d hd => ?_, fun q proj s n hh hc => ?_, fun q proj s n => ?_,
    fun q p hq hp => ?_, fun q hq => ?_⟩
  · rcases d with _ | ⟨a, d⟩
    · exact absurd rfl hd
    · rfl
  · simp [read, hh, hc]
  · simp [read]
  · rcases q with _ | ⟨a, q⟩
    · exact absurd rfl hq
    rcases p with _ | ⟨b, p⟩
    · exact absurd rfl hp
    · rfl
  · rcases q with _ | ⟨a, q⟩
    · exact absurd rfl hq
    · rfl

/-- C4 witness: concrete faulting calls all return the neutral results. -/
theorem store_faults_swallowed_witness :
    create stF (.dict dC) = .ok (false, stF) ∧
    read stF (some qC) none none 0 true = .ok ([], stF) ∧
    read stF (some qRange) none none 0 false = .ok ([], stF) ∧
    update stF (.dict qC) (.dict pC) = .ok (0, stF) ∧
    delete stF (.dict qC) = .ok (0, stF) := by
  have h := store_faults_swallowed stF rfl
  exact ⟨h.1 dC (by decide), h.2.1 qC none none 0 (by decide) rfl,
    h.2.2.1 qRange none none 0, h.2.2.2.1 qC pC (by decide) (by decide),
    h.2.2.2.2 qC (by decide)⟩

/-- C7: `create`, `update` and `delete` raise `ValueError` (the spec's
ValidationError) whenever a required argument is `None`, another
non-mapping, or an empty mapping; since the equations hold for every state,
including faulty-store states where a contacted store would have produced
the swallowed neutral result instead, the error is raised without
contacting the store. -/
theorem validation_errors (st : DBState) (q : Query) (p : Doc) (hq : q ≠ []) :
    create st (.pyNone : PyArg Doc) =
      .error (.valueError "Document must be a non-empty dictionary.") ∧
    create st (.dict []) =
      .error (.valueError "Document must be a non-empty dictionary.") ∧
    create st (.other : PyArg Doc) =
      .error (.valueError "Document must be a non-empty dictionary.") ∧
    update st (.pyNone : PyArg Query) (.dict p) =
      .error (.valueError "Query must be a non-empty dictionary.") ∧
    update st (.dict []) (.dict p) =
      .error (.valueError "Query must be a non-empty dictionary.") ∧
    update st (.other : PyArg Query) (.dict p) =
      .error (.valueError "Query must be a non-empty dictionary.") ∧
    update st (.dict q) (.pyNone : PyArg Doc) =
      .error (.valueError "Update data must be a non-empty dictionary.") ∧
    update st (.dict q) (.dict []) =
      .error (.valueError "Update data must be a non-empty dictionary.") ∧
    update st (.dict q) (.other : PyArg Doc) =
      .error (.valueError "Update data must be a non-empty dictionary.") ∧
    delete st (.pyNone : PyArg Query) =
      .error (.valueError "Query must be a non-empty dictionary.") ∧
    delete st (.dict []) =
      .error (.valueError "Query must be a non-empty dictionary.") ∧
    delete st (.other : PyArg Query) =
      .error (.valueError "Query must be a non-empty dictionary.") := by
  rcases q with _ | ⟨a, q⟩
  · exact absurd rfl hq
  · exact ⟨rfl, rfl, rfl, rfl, rfl, rfl, rfl, rfl, rfl, rfl, rfl, rfl⟩

/-- C7 witness: the validation equations at a concrete faulty state. -/
theorem validation_errors_witness :
    create stF (.pyNone : PyArg Doc) =
      .error (.valueError "Document must be a non-empty dictionary.") ∧
    update stF (.dict qC) (.dict []) =
      .error (.valueError "Update data must be a non-empty dictionary.") ∧
    delete stF (.dict []) =
      .error (.valueError "Query must be a non-empty dictionary.") := by
  have h := validation_errors stF qC pC (by decide)
  exact ⟨h.1, h.2.2.2.2.2.2.2.1, h.2.2.2.2.2.2.2.2.2.2.1⟩

/-- C9: for every query containing at least one non-scalar value (a `$in`
list or a `$gte`/`$lte` dict), `read` with caching enabled raises
`TypeError` during cache-key lookup — for every state, including faulty
ones whose fault-swallowing branch would have returned `[]`, so the raise
happens before any store interaction — while with caching disabled the
same query never raises at key derivation. -/
theorem unhashable_key_raises (st : DBState) (q : Query) (proj : Option Proj)
    (s : Option SortSpec) (n : Nat) (hq : hashableQuery q = false) :
    read st (some q) proj s n true = .error .typeErrorUnhashable ∧
    ∃ res, read st (some q) proj s n false = .ok res := by
  constructor
  · simp [read, hq]
  · cases hfl : st.faulty
    · exact ⟨(runFind st q proj s n, st), by simp [read, hfl]⟩
    · exact ⟨([], st), by simp [read, hfl]⟩

/-- C9 witness: the range query raises with caching on, succeeds with
caching off. -/
theorem unhashable_key_raises_witness :
    read stDocs (some qRange) none none 0 true = .error .typeErrorUnhashable ∧
    ∃ res, read stDocs (some qRange) none none 0 false = .ok res :=
  unhashable_key_raises stDocs qRange none none 0 (by decide)

/-- C10: the cache key depends only on the normalized query and the
projected field names, not on sort or limit: once a `read` with caching
enabled has populated the cache, a later cached `read` with the same query
and projection but any sort and limit returns the earlier list unchanged,
without contacting the store (the second call's result is independent of
the store contents and the fault flag); taking the first call sorted and
limited and the second unsorted gives the converse direction. -/
theorem read_cache_key_ignores_sort_limit (st : DBState) (q : Query)
    (proj : Option Proj) (s1 s2 : Option SortSpec) (n1 n2 : Nat)
    (hf : st.faulty = false) (hh : hashableQuery q = true) :
    ∃ docs st',
      read st (some q) proj s1 n1 true = .ok (docs, st') ∧
      ∀ s2' b, read { st' with store := s2', faulty := b } (some q) proj s2 n2 true =
        .ok (docs, { st' with store := s2', faulty := b }) := by
  cases hc : cacheGet st.cache (cache_key q (projFields proj)) with
  | some docs =>
      exact ⟨docs, st, read_cache_hit hh hc, fun s2' b => read_cache_hit hh hc⟩
  | none =>
      refine ⟨runFind st q proj s1 n1, _, read_cache_miss hf hh hc,
        fun s2' b => ?_⟩
      exact read_cache_hit hh (cacheGet_cacheSet_self ..)

/-- C10 witness: an unsorted, unlimited `read` populates the cache; a later
descending-sorted, limit-1 `read` of the same query and projection returns
the same full list. -/
theorem read_cache_key_ignores_sort_limit_witness :
    ∃ docs st',
      read stDocs (some qDog) none none 0 true = .ok (docs, st') ∧
      ∀ s2' b, read { st' with store := s2', faulty := b } (some qDog) none
          (some [("age_upon_outcome_in_weeks", -1)]) 1 true =
        .ok (docs, { st' with store := s2', faulty := b }) :=
  read_cache_key_ignores_sort_limit stDocs qDog none none
    (some [("age_upon_outcome_in_weeks", -1)]) 0 1 rfl (by decide)

/-- C8: `read_df` never raises on a healthy store (it returns the cleaned
frame of whatever the store produced), and `_clean_df` keeps every row
while coercing each named numeric column cell to the numeric coercion of
the original cell — so a non-convertible cell such as the string
`"unknown"` becomes the missing-value marker rather than raising, and all
other rows are still returned. -/
theorem read_df_coerces (rows : List Doc) :
    (clean_df rows).length = rows.length ∧
    (∀ i, i < rows.length → ∀ c, c ∈ numericCols → c ∈ dfColumns rows →
      List.lookup c ((clean_df rows).getD i []) =
        some (toNumeric ((List.lookup c (rows.getD i [])).getD Prim.nan))) ∧
    (∀ (st : DBState) (query : Option Query) (fields : Option (List String)),
      st.faulty = false →
      read_df st query fields true =
        .ok (clean_df (runFind st (query.getD []) (normalize_fields fields)
          none 0), st)) := by
  refine ⟨?_, ?_, ?_⟩
  · unfold clean_df
    split
    · rfl
    · simp
  · intro i hi c hnum hcol
    have hne : rows ≠ [] := by
      cases rows
      · simp at hi
      · simp
    have hid : (c == "_id") = false := by
      have hnum' : c = "age_upon_outcome_in_weeks" ∨ c = "location_lat" ∨
          c = "location_long" := by simpa [numericCols] using hnum
      rcases hnum' with rfl | rfl | rfl <;> decide
    unfold clean_df
    rw [if_neg (by simp [hne])]
    rw [List.getD_eq_getElem?_getD, List.getElem?_map,
      List.getElem?_eq_getElem hi]
    simp only [Option.map_some', Option.getD_some]
    have hc_cols : c ∈ (dfColumns rows).filter fun c0 => !(c0 == "_id") := by
      rw [List.mem_filter]
      exact ⟨hcol, by simp [hid]⟩
    rw [lookup_map_mk _ hc_cols]
    rw [List.getD_eq_getElem?_getD, List.getElem?_eq_getElem hi]
    simp only [Option.getD_some]
    unfold cleanCell
    rw [if_pos (by simpa using hnum)]
  · intro st query fields hf
    simp [read_df, read, hf]

/-- Rows for the C8 witness: one with a non-numeric age cell. -/
def rowsC8 : List Doc :=
  [[("name", .str "A"), ("age_upon_outcome_in_weeks", .str "unknown")],
   [("name", .str "B"), ("age_upon_outcome_in_weeks", .num 100)]]

/-- C8 witness: the `"unknown"` cell becomes the missing marker, the
numeric cell survives, no row is dropped, and a concrete `read_df` call
returns the cleaned frame. -/
theorem read_df_coerces_witness :
    (clean_df rowsC8).length = rowsC8.length ∧
    List.lookup "age_upon_outcome_in_weeks" ((clean_df rowsC8).getD 0 []) =
      some Prim.nan ∧
    List.lookup "age_upon_outcome_in_weeks" ((clean_df rowsC8).getD 1 []) =
      some (Prim.num 100) ∧
    read_df stDocs (some []) (some ["name"]) true =
      .ok (clean_df (runFind stDocs [] (normalize_fields (some ["name"]))
        none 0), stDocs) := by
  have h := read_df_coerces rowsC8
  refine ⟨h.1, ?_, ?_, (read_df_coerces []).2.2 stDocs (some []) (some ["name"]) rfl⟩
  · rw [h.2.1 0 (by decide) "age_upon_outcome_in_weeks" (by decide) (by decide)]
    decide
  · rw [h.2.1 1 (by decide) "age_upon_outcome_in_weeks" (by decide) (by decide)]
    decide

end PetDash
